import Mathlib

/-!
Verification of the audit-output parser of `DataScience/vw_audit_pp.py`.

The source program captures the text output of an external `vw --audit`
invocation (`run_vw_audit_command`), parses it into feature records, and
deduplicates them by the composite key
`(Namespace^Feature, HashValue, FeatureValue)` keeping the first occurrence
(`parse_audit_command`).  The functions below are a shallow embedding of
that code: Python strings become Lean `String`s, the pandas dataframe
becomes a `List FeatureRecord` in row order, a raised exception becomes
`Except.error` carrying the kind of exception (`IndexError` from the
unconditional `coeff_term[0..3]` indexing, `KeyError` from `set_index` on
the column-less frame built from an empty record list), and `print`
diagnostics become an explicit `List Diag` returned next to the value.  File writing (`to_csv`) and the actual process
invocation are I/O effects outside the value model; the external
`check_output` call is passed in as a function parameter.
-/

deriving instance DecidableEq for Except

namespace VwAuditPp

/-- Whitespace characters stripped by Python `str.strip()`: ASCII whitespace
plus the Unicode whitespace characters (U+0085, U+00A0, U+1680,
U+2000..U+200A, U+2028, U+2029, U+202F, U+205F, U+3000). -/
def isPySpace (c : Char) : Bool :=
  c == ' ' || c == '\t' || c == '\n' || c == '\r' || c == '\x0b' || c == '\x0c' ||
  c == '\x1c' || c == '\x1d' || c == '\x1e' || c == '\x1f' || c == '\x85' || c == '\xa0' ||
  c == '\u1680' || c == '\u2000' || c == '\u2001' || c == '\u2002' || c == '\u2003' ||
  c == '\u2004' || c == '\u2005' || c == '\u2006' || c == '\u2007' || c == '\u2008' ||
  c == '\u2009' || c == '\u200a' || c == '\u2028' || c == '\u2029' || c == '\u202f' ||
  c == '\u205f' || c == '\u3000'

/-- Python `str.strip()`: remove leading and trailing whitespace. -/
def pyStrip (s : String) : String :=
  String.mk (((s.data.dropWhile isPySpace).reverse.dropWhile isPySpace).reverse)

/-- Line-boundary characters recognised by Python `str.splitlines()`
(besides the two-character boundary `"\r\n"`, handled separately). -/
def isLineBreak (c : Char) : Bool :=
  c == '\n' || c == '\r' || c == '\x0b' || c == '\x0c' ||
  c == '\x1c' || c == '\x1d' || c == '\x1e' || c == '\x85' ||
  c == '\u2028' || c == '\u2029'

/-- Worker for `pySplitlines`: `acc` holds the current line, reversed. -/
def splitlinesAux : List Char → List Char → List String
  | [], acc => if acc.isEmpty then [] else [String.mk acc.reverse]
  | '\r' :: '\n' :: rest, acc => String.mk acc.reverse :: splitlinesAux rest []
  | c :: rest, acc =>
    if isLineBreak c then String.mk acc.reverse :: splitlinesAux rest []
    else splitlinesAux rest (c :: acc)

/-- Python `str.splitlines()`: split at line boundaries, no trailing empty
line for a trailing boundary, and `""` gives no lines at all. -/
def pySplitlines (s : String) : List String :=
  splitlinesAux s.data []

/-- Worker for `pySplit`: `acc` holds the current piece, reversed. -/
def splitOnCharAux (sep : Char) : List Char → List Char → List String
  | [], acc => [String.mk acc.reverse]
  | c :: rest, acc =>
    if c == sep then String.mk acc.reverse :: splitOnCharAux sep rest []
    else splitOnCharAux sep rest (c :: acc)

/-- Python `str.split(sep)` for a one-character separator (the source only
splits on `"\t"` and `":"`): `""` gives `[""]`, adjacent separators give
empty pieces. -/
def pySplit (s : String) (sep : Char) : List String :=
  splitOnCharAux sep s.data []

/-- One parsed coefficient entry, built from one colon-separated token of
the audit output (source dict keys: `Namespace^Feature`, `HashValue`,
`FeatureValue`, `WeightValue`). -/
structure FeatureRecord where
  namespaceFeature : String
  hashValue : String
  featureValue : String
  weightValue : String
deriving DecidableEq, Repr

/-- The composite identity key used for deduplication:
`(Namespace^Feature, HashValue, FeatureValue)`. -/
def featureKey (r : FeatureRecord) : String × String × String :=
  (r.namespaceFeature, r.hashValue, r.featureValue)

/-- The exceptions the source can raise while building the table:
`indexError` from `coeff_term[0..3]` on a token with fewer than 4 colon
parts, `keyError` from `set_index(["Namespace^Feature", "HashValue",
"FeatureValue"])` when `coeff_list` is empty, because `pd.DataFrame([])`
has no columns at all. -/
inductive PyError where
  | indexError : PyError
  | keyError : PyError
deriving DecidableEq, Repr

/-- One token of a coefficient line: split on `":"` and read the first four
parts, exactly as `coeff_term[0] .. coeff_term[3]` in the source.  Python
raises `IndexError` when fewer than 4 parts exist; that is the
`Except.error PyError.indexError` branch. -/
def parseCoeff (coeff : String) : Except PyError FeatureRecord :=
  let coeff_term := pySplit coeff ':'
  if 4 ≤ coeff_term.length then
    Except.ok { namespaceFeature := coeff_term.getD 0 ""
              , hashValue := coeff_term.getD 1 ""
              , featureValue := coeff_term.getD 2 ""
              , weightValue := coeff_term.getD 3 "" }
  else Except.error PyError.indexError

/-- The records contributed by the tokens of one line, left to right,
stopping at the first malformed token (the raised `IndexError`). -/
def parseCoeffs : List String → Except PyError (List FeatureRecord)
  | [] => Except.ok []
  | c :: rest =>
    match parseCoeff c with
    | Except.error e => Except.error e
    | Except.ok r =>
      match parseCoeffs rest with
      | Except.error e => Except.error e
      | Except.ok rs => Except.ok (r :: rs)

/-- The raw record list accumulated over the (already stripped) lines:
lines whose tab-split yields at most one token are skipped, all others
contribute their tokens' records in order (`coeff_list` in the source). -/
def collectRecords : List String → Except PyError (List FeatureRecord)
  | [] => Except.ok []
  | line :: rest =>
    let coefficients := pySplit line '\t'
    if coefficients.length ≤ 1 then collectRecords rest
    else
      match parseCoeffs coefficients with
      | Except.error e => Except.error e
      | Except.ok recs =>
        match collectRecords rest with
        | Except.error e => Except.error e
        | Except.ok more => Except.ok (recs ++ more)

/-- The raw (pre-deduplication) record list of a whole blob: split into
lines, strip each, accumulate. -/
def rawRecords (blob : String) : Except PyError (List FeatureRecord) :=
  collectRecords ((pySplitlines blob).map pyStrip)

/-- Keep-first deduplication by `featureKey`, as pandas
`df[~df.index.duplicated(keep='first')]`: a row survives exactly when its
key has not been seen earlier; `seen` is the set of keys already kept. -/
def dedupAux (seen : List (String × String × String)) :
    List FeatureRecord → List FeatureRecord
  | [] => []
  | r :: rest =>
    if featureKey r ∈ seen then dedupAux seen rest
    else r :: dedupAux (featureKey r :: seen) rest

/-- Deduplicate a record list, keeping the first occurrence of each key and
preserving row order. -/
def dedup (recs : List FeatureRecord) : List FeatureRecord :=
  dedupAux [] recs

/-- One diagnostic message printed in verbose mode, kept structured rather
than formatted. -/
inductive Diag where
  | lineInfo : Nat → String → Diag
  | numCoefficients : Nat → Diag
  | coeffParts : List String → Diag
deriving DecidableEq, Repr

/-- The verbose-mode walk over the tokens of one line: same values as
`parseCoeffs`, plus the `Coefficients:` diagnostic printed for every token
before its parts are indexed (so also for the failing one). -/
def processCoeffs ( verbose : Bool) :
    List String → Except PyError (List FeatureRecord) × List Diag
  | [] => (Except.ok [], [])
  | coeff :: rest =>
    let coeff_term := pySplit coeff ':'
    let d := if verbose then [Diag.coeffParts coeff_term] else []
    match parseCoeff coeff with
    | Except.error e => (Except.error e, d)
    | Except.ok r =>
      let (res, ds) := processCoeffs verbose rest
      (res.map (fun l => r :: l), d ++ ds)

/-- The verbose-mode walk over the lines (the main loop of
`parse_audit_command`): `line_number` is incremented at the top of the loop,
each line reports its number, text and token count when verbose. -/
def processLines ( verbose : Bool) :
    List String → Nat → Except PyError (List FeatureRecord) × List Diag
  | [], _ => (Except.ok [], [])
  | line :: rest, line_number =>
    let d1 := if verbose then [Diag.lineInfo line_number line] else []
    let coefficients := pySplit line '\t'
    let d2 := if verbose then [Diag.numCoefficients coefficients.length] else []
    if coefficients.length ≤ 1 then
      let (res, ds) := processLines verbose rest (line_number + 1)
      (res, d1 ++ d2 ++ ds)
    else
      match processCoeffs verbose coefficients with
      | (Except.error e, cds) => (Except.error e, d1 ++ d2 ++ cds)
      | (Except.ok recs, cds) =>
        let (res, ds) := processLines verbose rest (line_number + 1)
        (res.map (fun l => recs ++ l), d1 ++ d2 ++ cds ++ ds)

/-- The dataframe steps after the parse loop: `pd.DataFrame(coeff_list)`
followed by `set_index(["Namespace^Feature", "HashValue", "FeatureValue"])`
and the keep-first duplicated mask.  When `coeff_list` is empty the frame
has no columns and `set_index` raises `KeyError`; otherwise the frame has
exactly the four columns (every dict carries all four keys) and the result
is the keep-first deduplication in row order. -/
def toAuditTable (coeff_list : List FeatureRecord) :
    Except PyError (List FeatureRecord) :=
  if coeff_list.isEmpty then Except.error PyError.keyError
  else Except.ok (dedup coeff_list)

/-- Embedding of `parse_audit_command(vw_cmd_output, audit_output_file,
verbose)`: returns the deduplicated table (the dataframe, as a row list)
together with the verbose diagnostics; `Except.error` is the propagated
exception (`indexError` from a short token, `keyError` from `set_index` on
the empty record list).  The `audit_output_file` / `to_csv` write is a
file-system effect outside the value model and is not a parameter here. -/
def parse_audit_command (vw_cmd_output : String) ( verbose : Bool) :
    Except PyError (List FeatureRecord) × List Diag :=
  let lines := (pySplitlines vw_cmd_output).map pyStrip
  let (res, ds) := processLines verbose lines 1
  match res with
  | Except.error e => (Except.error e, ds)
  | Except.ok coeff_list => (toAuditTable coeff_list, ds)

/-- Python truthiness of the optional `pred_file` argument, as tested by
`if pred_file:` in the source: `None` is falsy and so is the empty string,
so both skip the `-p` clause. -/
def pyTruthy : Option String → Bool
  | none => false
  | some p => p != ""

/-- Embedding of `run_vw_audit_command`: the external process runner
`check_output` is passed in as a function from the command string to its
captured standard output.  The command string is built exactly as in the
source: append `-p <pred_file>` to the base command when `if pred_file:`
holds (truthy, so nonempty), then append
`-i <model> --dsjson <log> --audit`. -/
def run_vw_audit_command (check_output : String → String)
    (model_file log_file : String) (pred_file : Option String)
    ( verbose : Bool) (vw_base_cmd : String) : String :=
  let vw_base_cmd :=
    if pyTruthy pred_file then vw_base_cmd ++ " -p " ++ pred_file.getD ""
    else vw_base_cmd
  let vw_audit_cmd :=
    vw_base_cmd ++ " -i " ++ model_file ++ " --dsjson " ++ log_file ++ " --audit"
  check_output vw_audit_cmd

/-- Embedding of `pprint_vw_audit`: run the audit command, then parse its
output.  The source calls `parse_audit_command(vw_cmd_output,
audit_output_file)` with `verbose` left at its default `False`, whatever
`verbose` it itself received; `audit_output_file` only names the file the
table is written to. -/
def pprint_vw_audit (check_output : String → String)
    (model_file log_file audit_output_file : String) (pred_file : Option String)
    ( verbose : Bool) (vw_base_cmd : String) :
    Except PyError (List FeatureRecord) × List Diag :=
  let vw_cmd_output :=
    run_vw_audit_command check_output model_file log_file pred_file verbose vw_base_cmd
  parse_audit_command vw_cmd_output false

/-- Spec-side definition for the row-order claim, modelled from the spec's
words "first-occurrence order of each surviving key in the input text":
the key list with every repeated key dropped, scanning left to right. -/
def firstOccsAux (seen : List (String × String × String)) :
    List (String × String × String) → List (String × String × String)
  | [] => []
  | k :: rest =>
    if k ∈ seen then firstOccsAux seen rest
    else k :: firstOccsAux (k :: seen) rest

/-- First-occurrence order of the keys of a scan, per the spec's words. -/
def firstOccs (ks : List (String × String × String)) :
    List (String × String × String) :=
  firstOccsAux [] ks

/-! Bridge lemmas: the value component of the verbose walk is the plain
accumulation, for either setting of the verbose flag. -/

theorem processCoeffs_fst (v : Bool) (cs : List String) :
    (processCoeffs v cs).fst = parseCoeffs cs := by
  induction cs with
  | nil => rfl
  | cons c rest ih =>
    simp only [processCoeffs, parseCoeffs]
    cases hc : parseCoeff c with
    | error e => rfl
    | ok r =>
      rcases hp : processCoeffs v rest with ⟨res, ds⟩
      rw [hp] at ih
      simp only at ih
      simp only [ih]
      cases parseCoeffs rest <;> rfl

theorem processLines_fst (v : Bool) (lines : List String) : ∀ n : Nat,
    (processLines v lines n).fst = collectRecords lines := by
  induction lines with
  | nil => intro n; rfl
  | cons line rest ih =>
    intro n
    simp only [processLines, collectRecords]
    by_cases hlen : (pySplit line '\t').length ≤ 1
    · rw [if_pos hlen, if_pos hlen]
      rcases hp : processLines v rest (n + 1) with ⟨res, ds⟩
      have h := ih (n + 1)
      rw [hp] at h
      exact h
    · rw [if_neg hlen, if_neg hlen]
      rcases hc : processCoeffs v (pySplit line '\t') with ⟨cres, cds⟩
      have hfst := processCoeffs_fst v (pySplit line '\t')
      rw [hc] at hfst
      simp only at hfst
      rw [← hfst]
      cases cres with
      | error e => rfl
      | ok recs =>
        rcases hp : processLines v rest (n + 1) with ⟨res, ds⟩
        have h := ih (n + 1)
        rw [hp] at h
        simp only at h
        simp only [h]
        cases collectRecords rest <;> rfl

theorem parse_audit_fst (blob : String) (v : Bool) :
    (parse_audit_command blob v).fst =
      Except.bind (rawRecords blob) toAuditTable := by
  unfold parse_audit_command rawRecords
  rcases hp : processLines v ((pySplitlines blob).map pyStrip) 1 with ⟨res, ds⟩
  have h := processLines_fst v ((pySplitlines blob).map pyStrip) 1
  rw [hp] at h
  simp only at h
  simp only [hp, h]
  cases collectRecords ((pySplitlines blob).map pyStrip) <;> rfl

theorem except_bind_table_ok {e : Except PyError (List FeatureRecord)}
    {t : List FeatureRecord} :
    Except.bind e toAuditTable = Except.ok t ↔
      ∃ recs, e = Except.ok recs ∧ recs ≠ [] ∧ t = dedup recs := by
  cases e with
  | error a => simp [Except.bind]
  | ok recs =>
    simp only [Except.bind]
    unfold toAuditTable
    by_cases hemp : recs.isEmpty
    · rw [if_pos hemp]
      have hnil : recs = [] := by
        cases recs
        · rfl
        · simp [List.isEmpty] at hemp
      subst hnil
      simp
    · rw [if_neg hemp]
      have hne : recs ≠ [] := by
        intro h0
        subst h0
        exact hemp rfl
      constructor
      · intro h
        injection h with h2
        exact ⟨recs, rfl, hne, h2.symm⟩
      · rintro ⟨recs2, h1, h2, h3⟩
        cases h1
        rw [h3]

/-! Every exception raised inside the parse loop is the `IndexError` from
`coeff_term[0..3]`; `KeyError` only arises later, from `set_index`. -/

theorem parseCoeff_error_eq {c : String} {e : PyError}
    (h : parseCoeff c = Except.error e) : e = PyError.indexError := by
  unfold parseCoeff at h
  by_cases h4 : 4 ≤ (pySplit c ':').length
  · rw [if_pos h4] at h
    cases h
  · rw [if_neg h4] at h
    injection h with h2
    exact h2.symm

theorem parseCoeffs_error_eq {cs : List String} {e : PyError}
    (h : parseCoeffs cs = Except.error e) : e = PyError.indexError := by
  induction cs generalizing e with
  | nil => cases h
  | cons c rest ih =>
    simp only [parseCoeffs] at h
    cases hc : parseCoeff c with
    | error e2 =>
      rw [hc] at h
      injection h with h2
      rw [← h2]
      exact parseCoeff_error_eq hc
    | ok r =>
      rw [hc] at h
      cases hr : parseCoeffs rest with
      | error e2 =>
        rw [hr] at h
        injection h with h2
        rw [← h2]
        exact ih hr
      | ok rs =>
        rw [hr] at h
        cases h

theorem collectRecords_error_eq {lines : List String} {e : PyError}
    (h : collectRecords lines = Except.error e) : e = PyError.indexError := by
  induction lines generalizing e with
  | nil => cases h
  | cons line rest ih =>
    simp only [collectRecords] at h
    by_cases hlen : (pySplit line '\t').length ≤ 1
    · rw [if_pos hlen] at h
      exact ih h
    · rw [if_neg hlen] at h
      cases hp : parseCoeffs (pySplit line '\t') with
      | error e2 =>
        rw [hp] at h
        injection h with h2
        rw [← h2]
        exact parseCoeffs_error_eq hp
      | ok recs =>
        rw [hp] at h
        cases hr : collectRecords rest with
        | error e2 =>
          rw [hr] at h
          injection h with h2
          rw [← h2]
          exact ih hr
        | ok more =>
          rw [hr] at h
          cases h

/-! Error characterisation: the parse raises `IndexError` exactly when some
token of a coefficient line has fewer than 4 colon-separated parts. -/

theorem parseCoeff_error_iff (c : String) :
    parseCoeff c = Except.error PyError.indexError ↔
      (pySplit c ':').length < 4 := by
  unfold parseCoeff
  by_cases h : 4 ≤ (pySplit c ':').length
  · rw [if_pos h]
    simp [Nat.not_lt.mpr h]
  · rw [if_neg h]
    simp [Nat.not_le.mp h]

theorem parseCoeffs_error_iff (cs : List String) :
    parseCoeffs cs = Except.error PyError.indexError ↔
      ∃ c ∈ cs, (pySplit c ':').length < 4 := by
  induction cs with
  | nil => simp [parseCoeffs]
  | cons c rest ih =>
    simp only [parseCoeffs]
    cases hc : parseCoeff c with
    | error e =>
      have he := parseCoeff_error_eq hc
      subst he
      simp only [List.mem_cons]
      constructor
      · intro _
        exact ⟨c, Or.inl rfl, (parseCoeff_error_iff c).mp hc⟩
      · intro _; trivial
    | ok r =>
      have hcnot : ¬ (pySplit c ':').length < 4 := by
        intro hlt
        rw [(parseCoeff_error_iff c).mpr hlt] at hc
        cases hc
      cases hr : parseCoeffs rest with
      | error e =>
        have he := parseCoeffs_error_eq hr
        subst he
        simp only [List.mem_cons]
        constructor
        · intro _
          obtain ⟨c', hc', hlen⟩ := ih.mp hr
          exact ⟨c', Or.inr hc', hlen⟩
        · intro _; trivial
      | ok rs =>
        simp only [List.mem_cons]
        constructor
        · intro h; cases h
        · rintro ⟨c', hmem, hlen⟩
          rcases hmem with rfl | hmem
          · exact absurd hlen hcnot
          · have : parseCoeffs rest = Except.error PyError.indexError :=
              ih.mpr ⟨c', hmem, hlen⟩
            rw [this] at hr
            cases hr

theorem collectRecords_error_iff (lines : List String) :
    collectRecords lines = Except.error PyError.indexError ↔
      ∃ line ∈ lines, 2 ≤ (pySplit line '\t').length ∧
        ∃ c ∈ pySplit line '\t', (pySplit c ':').length < 4 := by
  induction lines with
  | nil => simp [collectRecords]
  | cons line rest ih =>
    simp only [collectRecords, List.mem_cons]
    by_cases hlen : (pySplit line '\t').length ≤ 1
    · rw [if_pos hlen, ih]
      constructor
      · rintro ⟨l, hl, h2, hc⟩
        exact ⟨l, Or.inr hl, h2, hc⟩
      · rintro ⟨l, hl, h2, hc⟩
        rcases hl with rfl | hl
        · exact absurd h2 (by omega)
        · exact ⟨l, hl, h2, hc⟩
    · have h2 : 2 ≤ (pySplit line '\t').length := by omega
      rw [if_neg hlen]
      cases hp : parseCoeffs (pySplit line '\t') with
      | error e =>
        have he := parseCoeffs_error_eq hp
        subst he
        constructor
        · intro _
          exact ⟨line, Or.inl rfl, h2, (parseCoeffs_error_iff _).mp hp⟩
        · intro _; trivial
      | ok recs =>
        have hline_ok : ¬ ∃ c ∈ pySplit line '\t', (pySplit c ':').length < 4 := by
          intro hex
          rw [(parseCoeffs_error_iff _).mpr hex] at hp
          cases hp
        cases hr : collectRecords rest with
        | error e =>
          have he := collectRecords_error_eq hr
          subst he
          constructor
          · intro _
            obtain ⟨l, hl, hc⟩ := ih.mp hr
            exact ⟨l, Or.inr hl, hc⟩
          · intro _; trivial
        | ok more =>
          constructor
          · intro h; cases h
          · rintro ⟨l, hl, hc⟩
            rcases hl with rfl | hl
            · exact absurd hc.2 hline_ok
            · have : collectRecords rest = Except.error PyError.indexError :=
                ih.mpr ⟨l, hl, hc⟩
              rw [this] at hr
              cases hr

theorem collectRecords_no_coeff_lines (lines : List String)
    (h : ∀ line ∈ lines, (pySplit line '\t').length ≤ 1) :
    collectRecords lines = Except.ok [] := by
  induction lines with
  | nil => rfl
  | cons line rest ih =>
    simp only [collectRecords]
    rw [if_pos (h line (List.mem_cons_self _ _))]
    exact ih fun l hl => h l (List.mem_cons_of_mem _ hl)

/-! Properties of keep-first deduplication. -/

theorem dedupAux_not_mem_seen :
    ∀ (l : List FeatureRecord) (seen : List (String × String × String))
      (r : FeatureRecord), r ∈ dedupAux seen l → featureKey r ∉ seen := by
  intro l
  induction l with
  | nil => intro seen r hr; cases hr
  | cons r0 rest ih =>
    intro seen r hr
    simp only [dedupAux] at hr
    by_cases h0 : featureKey r0 ∈ seen
    · rw [if_pos h0] at hr
      exact ih seen r hr
    · rw [if_neg h0] at hr
      rcases List.mem_cons.mp hr with rfl | hr
      · exact h0
      · have := ih (featureKey r0 :: seen) r hr
        exact fun hmem => this (List.mem_cons_of_mem _ hmem)

theorem dedupAux_pairwise :
    ∀ (l : List FeatureRecord) (seen : List (String × String × String)),
      (dedupAux seen l).Pairwise (fun a b => featureKey a ≠ featureKey b) := by
  intro l
  induction l with
  | nil => intro seen; exact List.Pairwise.nil
  | cons r0 rest ih =>
    intro seen
    simp only [dedupAux]
    by_cases h0 : featureKey r0 ∈ seen
    · rw [if_pos h0]; exact ih seen
    · rw [if_neg h0]
      refine List.Pairwise.cons ?_ (ih (featureKey r0 :: seen))
      intro b hb heq
      have := dedupAux_not_mem_seen rest (featureKey r0 :: seen) b hb
      exact this (heq ▸ List.mem_cons_self _ _)

theorem dedupAux_find? :
    ∀ (l : List FeatureRecord) (seen : List (String × String × String))
      (r : FeatureRecord), r ∈ dedupAux seen l →
      l.find? (fun r0 => decide (featureKey r0 = featureKey r)) = some r := by
  intro l
  induction l with
  | nil => intro seen r hr; cases hr
  | cons r0 rest ih =>
    intro seen r hr
    simp only [dedupAux] at hr
    by_cases h0 : featureKey r0 ∈ seen
    · rw [if_pos h0] at hr
      have hne : featureKey r0 ≠ featureKey r := by
        intro heq
        exact dedupAux_not_mem_seen rest seen r hr (heq ▸ h0)
      rw [List.find?_cons_of_neg _ (by simpa using hne)]
      exact ih seen r hr
    · rw [if_neg h0] at hr
      rcases List.mem_cons.mp hr with rfl | hr
      · exact List.find?_cons_of_pos _ (by simp)
      · have hnotin := dedupAux_not_mem_seen rest (featureKey r0 :: seen) r hr
        have hne : featureKey r0 ≠ featureKey r := by
          intro heq
          exact hnotin (heq ▸ List.mem_cons_self _ _)
        rw [List.find?_cons_of_neg _ (by simpa using hne)]
        exact ih (featureKey r0 :: seen) r hr

theorem dedupAux_covers :
    ∀ (l : List FeatureRecord) (seen : List (String × String × String))
      (r' : FeatureRecord), r' ∈ l →
      featureKey r' ∈ seen ∨
        ∃ r ∈ dedupAux seen l, featureKey r = featureKey r' := by
  intro l
  induction l with
  | nil => intro seen r' hr'; cases hr'
  | cons r0 rest ih =>
    intro seen r' hr'
    simp only [dedupAux]
    by_cases h0 : featureKey r0 ∈ seen
    · rw [if_pos h0]
      rcases List.mem_cons.mp hr' with rfl | hr'
      · exact Or.inl h0
      · exact ih seen r' hr'
    · rw [if_neg h0]
      rcases List.mem_cons.mp hr' with rfl | hr'
      · exact Or.inr ⟨r', List.mem_cons_self _ _, rfl⟩
      · rcases ih (featureKey r0 :: seen) r' hr' with hmem | ⟨r, hr, hkey⟩
        · rcases List.mem_cons.mp hmem with heq | hmem
          · exact Or.inr ⟨r0, List.mem_cons_self _ _, heq.symm⟩
          · exact Or.inl hmem
        · exact Or.inr ⟨r, List.mem_cons_of_mem _ hr, hkey⟩

theorem dedupAux_map_key :
    ∀ (l : List FeatureRecord) (seen : List (String × String × String)),
      (dedupAux seen l).map featureKey = firstOccsAux seen (l.map featureKey) := by
  intro l
  induction l with
  | nil => intro seen; rfl
  | cons r0 rest ih =>
    intro seen
    simp only [dedupAux, List.map_cons, firstOccsAux]
    by_cases h0 : featureKey r0 ∈ seen
    · rw [if_pos h0, if_pos h0]
      exact ih seen
    · rw [if_neg h0, if_neg h0, List.map_cons]
      rw [ih (featureKey r0 :: seen)]

/-! The claims. -/

/-- C1: the claim says an empty blob, or one with no line carrying at least
two tab-separated tokens, yields a zero-row table and no error.  The code
disagrees: on every such blob `coeff_list` stays empty, `pd.DataFrame([])`
has no columns, and `set_index` on the three key columns raises `KeyError`,
so `parse_audit_command` crashes instead of returning a table. -/
theorem parse_audit_no_coeff_lines_keyerror (blob : String) (v : Bool)
    (h : ∀ line ∈ (pySplitlines blob).map pyStrip,
      (pySplit line '\t').length ≤ 1) :
    (parse_audit_command blob v).fst = Except.error PyError.keyError := by
  rw [parse_audit_fst]
  unfold rawRecords
  rw [collectRecords_no_coeff_lines _ h]
  rfl

theorem parse_audit_no_coeff_lines_keyerror_witness :
    ((∀ line ∈ (pySplitlines "").map pyStrip,
      (pySplit line '\t').length ≤ 1) ∧
    (parse_audit_command "" false).fst = Except.error PyError.keyError) ∧
    ((∀ line ∈ (pySplitlines "header line\nfooter").map pyStrip,
      (pySplit line '\t').length ≤ 1) ∧
    (parse_audit_command "header line\nfooter" false).fst =
      Except.error PyError.keyError) :=
  ⟨⟨by decide, parse_audit_no_coeff_lines_keyerror "" false (by decide)⟩,
   ⟨by decide,
    parse_audit_no_coeff_lines_keyerror "header line\nfooter" false (by decide)⟩⟩

/-- C2: for every input blob, the parse raises `IndexError` if and only if
some line with at least two tab-separated tokens contains a token that
splits into fewer than 4 colon-separated parts (all 4 positions are read
unconditionally, so any shorter token is fatal). -/
theorem parse_audit_error_iff_short_fragment (blob : String) (v : Bool) :
    (parse_audit_command blob v).fst = Except.error PyError.indexError ↔
      ∃ line ∈ (pySplitlines blob).map pyStrip,
        2 ≤ (pySplit line '\t').length ∧
        ∃ coeff ∈ pySplit line '\t', (pySplit coeff ':').length < 4 := by
  rw [parse_audit_fst]
  unfold rawRecords
  rw [← collectRecords_error_iff]
  cases hr : collectRecords ((pySplitlines blob).map pyStrip) with
  | error e =>
    have he := collectRecords_error_eq hr
    subst he
    simp [Except.bind]
  | ok recs =>
    simp only [Except.bind]
    unfold toAuditTable
    by_cases hemp : recs.isEmpty
    · rw [if_pos hemp]
      simp
    · rw [if_neg hemp]
      simp

theorem parse_audit_error_iff_short_fragment_witness :
    (∃ line ∈ (pySplitlines "x:9\ty:1:2:3").map pyStrip,
        2 ≤ (pySplit line '\t').length ∧
        ∃ coeff ∈ pySplit line '\t', (pySplit coeff ':').length < 4) ∧
    (parse_audit_command "x:9\ty:1:2:3" false).fst =
      Except.error PyError.indexError :=
  ⟨by decide,
   (parse_audit_error_iff_short_fragment "x:9\ty:1:2:3" false).mpr (by decide)⟩

/-- C3: whenever the parse returns a table, that table is the keep-first
deduplication of the raw parse-order record list: every surviving row is
the first raw record carrying its composite key (so it keeps the first-seen
weight), and every raw record's key is represented, so later duplicates are
dropped silently; on `"a:1:1:0.1\ta:1:1:0.9"` the surviving weight is
`"0.1"`. -/
theorem parse_audit_dedup_keeps_first (blob : String) (v : Bool)
    (table : List FeatureRecord)
    (h : (parse_audit_command blob v).fst = Except.ok table) :
    (∃ recs, rawRecords blob = Except.ok recs ∧ table = dedup recs ∧
      (∀ r ∈ table,
        recs.find? (fun r0 => decide (featureKey r0 = featureKey r)) = some r) ∧
      (∀ r' ∈ recs, ∃ r ∈ table, featureKey r = featureKey r')) ∧
    (parse_audit_command "a:1:1:0.1\ta:1:1:0.9" false).fst =
      Except.ok [{ namespaceFeature := "a", hashValue := "1",
                   featureValue := "1", weightValue := "0.1" }] := by
  constructor
  · rw [parse_audit_fst] at h
    obtain ⟨recs, hraw, hne, ht⟩ := except_bind_table_ok.mp h
    refine ⟨recs, hraw, ht, ?_, ?_⟩
    · intro r hr
      rw [ht] at hr
      exact dedupAux_find? recs [] r hr
    · intro r' hr'
      rcases dedupAux_covers recs [] r' hr' with hmem | ⟨r, hr, hkey⟩
      · cases hmem
      · exact ⟨r, by rw [ht]; exact hr, hkey⟩
  · decide

theorem parse_audit_dedup_keeps_first_witness :
    ((parse_audit_command "a:1:1:0.1\ta:1:1:0.9" false).fst =
      Except.ok [{ namespaceFeature := "a", hashValue := "1",
                   featureValue := "1", weightValue := "0.1" }]) ∧
    ((∃ recs, rawRecords "a:1:1:0.1\ta:1:1:0.9" = Except.ok recs ∧
      [{ namespaceFeature := "a", hashValue := "1",
         featureValue := "1", weightValue := "0.1" }] = dedup recs ∧
      (∀ r ∈ [{ namespaceFeature := "a", hashValue := "1",
                featureValue := "1", weightValue := "0.1" }],
        recs.find? (fun r0 => decide (featureKey r0 = featureKey r)) = some r) ∧
      (∀ r' ∈ recs,
        ∃ r ∈ [{ namespaceFeature := "a", hashValue := "1",
                 featureValue := "1", weightValue := "0.1" }],
          featureKey r = featureKey r')) ∧
    (parse_audit_command "a:1:1:0.1\ta:1:1:0.9" false).fst =
      Except.ok [{ namespaceFeature := "a", hashValue := "1",
                   featureValue := "1", weightValue := "0.1" }]) :=
  ⟨by decide, parse_audit_dedup_keeps_first "a:1:1:0.1\ta:1:1:0.9" false _ (by decide)⟩

/-- C4: whenever the parse returns a table, the composite keys of its rows
are pairwise distinct. -/
theorem parse_audit_keys_unique (blob : String) (v : Bool)
    (table : List FeatureRecord)
    (h : (parse_audit_command blob v).fst = Except.ok table) :
    table.Pairwise (fun a b => featureKey a ≠ featureKey b) := by
  rw [parse_audit_fst] at h
  obtain ⟨recs, hraw, hne, ht⟩ := except_bind_table_ok.mp h
  rw [ht]
  exact dedupAux_pairwise recs []

theorem parse_audit_keys_unique_witness :
    ((parse_audit_command "b:2:2:0.5\ta:1:1:0.1\na:1:1:0.9\tc:3:3:0.7" false).fst =
      Except.ok [{ namespaceFeature := "b", hashValue := "2",
                   featureValue := "2", weightValue := "0.5" },
                 { namespaceFeature := "a", hashValue := "1",
                   featureValue := "1", weightValue := "0.1" },
                 { namespaceFeature := "c", hashValue := "3",
                   featureValue := "3", weightValue := "0.7" }]) ∧
    List.Pairwise (fun a b => featureKey a ≠ featureKey b)
      [{ namespaceFeature := "b", hashValue := "2",
         featureValue := "2", weightValue := "0.5" },
       { namespaceFeature := "a", hashValue := "1",
         featureValue := "1", weightValue := "0.1" },
       { namespaceFeature := "c", hashValue := "3",
         featureValue := "3", weightValue := "0.7" }] :=
  ⟨by decide,
   parse_audit_keys_unique "b:2:2:0.5\ta:1:1:0.1\na:1:1:0.9\tc:3:3:0.7" false _ (by decide)⟩

/-- C5: whenever the parse returns a table, the row order is the
first-occurrence order of each surviving composite key in the raw
parse-order scan (lines top to bottom, tokens left to right). -/
theorem parse_audit_row_order_first_occurrence (blob : String) (v : Bool)
    (table : List FeatureRecord)
    (h : (parse_audit_command blob v).fst = Except.ok table) :
    ∃ recs, rawRecords blob = Except.ok recs ∧
      table.map featureKey = firstOccs (recs.map featureKey) := by
  rw [parse_audit_fst] at h
  obtain ⟨recs, hraw, hne, ht⟩ := except_bind_table_ok.mp h
  exact ⟨recs, hraw, by rw [ht]; exact dedupAux_map_key recs []⟩

theorem parse_audit_row_order_first_occurrence_witness :
    ((parse_audit_command "b:2:2:0.5\ta:1:1:0.1\na:1:1:0.9\tc:3:3:0.7" true).fst =
      Except.ok [{ namespaceFeature := "b", hashValue := "2",
                   featureValue := "2", weightValue := "0.5" },
                 { namespaceFeature := "a", hashValue := "1",
                   featureValue := "1", weightValue := "0.1" },
                 { namespaceFeature := "c", hashValue := "3",
                   featureValue := "3", weightValue := "0.7" }]) ∧
    (∃ recs,
      rawRecords "b:2:2:0.5\ta:1:1:0.1\na:1:1:0.9\tc:3:3:0.7" = Except.ok recs ∧
      [{ namespaceFeature := "b", hashValue := "2",
         featureValue := "2", weightValue := "0.5" },
       { namespaceFeature := "a", hashValue := "1",
         featureValue := "1", weightValue := "0.1" },
       { namespaceFeature := "c", hashValue := "3",
         featureValue := "3", weightValue := "0.7" }].map featureKey =
        firstOccs (recs.map featureKey)) :=
  ⟨by decide,
   parse_audit_row_order_first_occurrence
     "b:2:2:0.5\ta:1:1:0.1\na:1:1:0.9\tc:3:3:0.7" true _ (by decide)⟩

/-- C6 counterexample: the blob consisting of the single line
`"ns^feat:abcd1234:1.0:0.532"` contains no tab, so the line splits into one
token and is skipped entirely; `coeff_list` stays empty and `set_index` on
the column-less frame raises `KeyError` — the parse crashes and in
particular does not return the claimed single-row table. -/
theorem parse_audit_single_token_line_cex :
    (parse_audit_command "ns^feat:abcd1234:1.0:0.532" false).fst =
      Except.error PyError.keyError ∧
    (parse_audit_command "ns^feat:abcd1234:1.0:0.532" false).fst ≠
      Except.ok [{ namespaceFeature := "ns^feat", hashValue := "abcd1234",
                   featureValue := "1.0", weightValue := "0.532" }] := by
  constructor <;> decide

/-- C6 amended: parsing the blob consisting of the single line
`"ns^feat:abcd1234:1.0:0.532"` does not yield a one-row table: the line has
no tab, splits into a single token, and is skipped, so the record list is
empty and the `set_index` step crashes with `KeyError`; the same token on a
line that also carries a second token yields a row with exactly the fields
`namespaceFeature="ns^feat"`, `hashValue="abcd1234"`, `featureValue="1.0"`,
`weightValue="0.532"`. -/
theorem parse_audit_single_token_line_amended :
    (parse_audit_command "ns^feat:abcd1234:1.0:0.532" false).fst =
      Except.error PyError.keyError ∧
    (parse_audit_command "ns^feat:abcd1234:1.0:0.532\tother:h:v:w" false).fst =
      Except.ok [{ namespaceFeature := "ns^feat", hashValue := "abcd1234",
                   featureValue := "1.0", weightValue := "0.532" },
                 { namespaceFeature := "other", hashValue := "h",
                   featureValue := "v", weightValue := "w" }] := by
  constructor <;> decide

/-- C7 counterexample: on the blob `"a:1\tb:1:2:3"` the first token of the
coefficient line has only 2 colon-separated parts, and the parser crashes
with `IndexError` instead of skipping it. -/
theorem parse_audit_two_part_fragment_cex :
    (parse_audit_command "a:1\tb:1:2:3" false).fst =
      Except.error PyError.indexError := by
  decide

/-- C7 amended: for every input blob containing, on a line with at least two
tab-separated tokens, a token with only 2 colon-delimited parts, the parser
raises `IndexError` and returns no table (so the malformed token appears in
no output row). -/
theorem parse_audit_two_part_fragment_errors (blob : String) (v : Bool)
    (h : ∃ line ∈ (pySplitlines blob).map pyStrip,
      2 ≤ (pySplit line '\t').length ∧
      ∃ coeff ∈ pySplit line '\t', (pySplit coeff ':').length = 2) :
    (parse_audit_command blob v).fst = Except.error PyError.indexError := by
  obtain ⟨line, hl, h2, coeff, hc, hlen⟩ := h
  rw [parse_audit_fst]
  unfold rawRecords
  rw [(collectRecords_error_iff _).mpr ⟨line, hl, h2, coeff, hc, by omega⟩]
  rfl

theorem parse_audit_two_part_fragment_errors_witness :
    (∃ line ∈ (pySplitlines "u:1:2:3\tw:5").map pyStrip,
      2 ≤ (pySplit line '\t').length ∧
      ∃ coeff ∈ pySplit line '\t', (pySplit coeff ':').length = 2) ∧
    (parse_audit_command "u:1:2:3\tw:5" false).fst =
      Except.error PyError.indexError :=
  ⟨by decide, parse_audit_two_part_fragment_errors "u:1:2:3\tw:5" false (by decide)⟩

/-- C8 counterexample: the source guards the `-p` clause with Python
truthiness (`if pred_file:`), so supplying the empty string as prediction
file path builds the command without `-p`, where the claim asserts
`" -p <pred_file>"` is appended for every supplied path. -/
theorem run_vw_audit_command_truthiness_cex :
    run_vw_audit_command id "model.vw" "log.json" (some "") false
        "vw -t -l 0.001" =
      "vw -t -l 0.001 -i model.vw --dsjson log.json --audit" ∧
    run_vw_audit_command id "model.vw" "log.json" (some "") false
        "vw -t -l 0.001" ≠
      "vw -t -l 0.001 -p  -i model.vw --dsjson log.json --audit" := by
  constructor <;> decide

/-- C8 amended: `run_vw_audit_command` executes exactly the command string
base-command plus `" -i <model> --dsjson <log> --audit"`, with
`" -p <pred_file>"` appended to the base command when a nonempty prediction
file path is supplied — the Python guard `if pred_file:` treats the empty
string,
like `None`, as falsy and skips the `-p` clause — and returns the full
captured standard output of that command. -/
theorem run_vw_audit_command_builds_cmd (check_output : String → String)
    (model_file log_file pred_file vw_base_cmd : String) (v : Bool)
    (h : pred_file ≠ "") :
    run_vw_audit_command check_output model_file log_file none v vw_base_cmd =
      check_output (vw_base_cmd ++ " -i " ++ model_file ++ " --dsjson " ++
        log_file ++ " --audit") ∧
    run_vw_audit_command check_output model_file log_file (some pred_file) v
        vw_base_cmd =
      check_output (vw_base_cmd ++ " -p " ++ pred_file ++ " -i " ++ model_file ++
        " --dsjson " ++ log_file ++ " --audit") ∧
    run_vw_audit_command check_output model_file log_file (some "") v
        vw_base_cmd =
      check_output (vw_base_cmd ++ " -i " ++ model_file ++ " --dsjson " ++
        log_file ++ " --audit") := by
  refine ⟨rfl, ?_, rfl⟩
  unfold run_vw_audit_command
  simp only [pyTruthy, Option.getD_some]
  rw [if_pos (by simpa using h)]

theorem run_vw_audit_command_builds_cmd_witness :
    ("preds.txt" ≠ "") ∧
    (run_vw_audit_command id "model.vw" "log.json" none false "vw -t -l 0.001" =
      id ("vw -t -l 0.001" ++ " -i " ++ "model.vw" ++ " --dsjson " ++
        "log.json" ++ " --audit") ∧
    run_vw_audit_command id "model.vw" "log.json" (some "preds.txt") false
        "vw -t -l 0.001" =
      id ("vw -t -l 0.001" ++ " -p " ++ "preds.txt" ++ " -i " ++ "model.vw" ++
        " --dsjson " ++ "log.json" ++ " --audit") ∧
    run_vw_audit_command id "model.vw" "log.json" (some "") false
        "vw -t -l 0.001" =
      id ("vw -t -l 0.001" ++ " -i " ++ "model.vw" ++ " --dsjson " ++
        "log.json" ++ " --audit")) :=
  ⟨by decide,
   run_vw_audit_command_builds_cmd id "model.vw" "log.json" "preds.txt"
     "vw -t -l 0.001" false (by decide)⟩

/-- C9: the table component of the parse does not depend on the verbose
flag (verbose only adds diagnostics), and `pprint_vw_audit` always invokes
the parser with verbose left at its default `false`, whatever verbose
argument it received. -/
theorem parse_audit_verbose_independent :
    (∀ (blob : String) (v1 v2 : Bool),
      (parse_audit_command blob v1).fst = (parse_audit_command blob v2).fst) ∧
    (∀ (check_output : String → String)
        (model_file log_file audit_output_file : String)
        (pred_file : Option String) (v : Bool) (vw_base_cmd : String),
      pprint_vw_audit check_output model_file log_file audit_output_file
          pred_file v vw_base_cmd =
        parse_audit_command
          (run_vw_audit_command check_output model_file log_file pred_file v
            vw_base_cmd)
          false) := by
  constructor
  · intro blob v1 v2
    rw [parse_audit_fst, parse_audit_fst]
  · intro _ _ _ _ _ _ _
    rfl

/-- C10: a token that splits into more than 4 colon-separated parts yields
the record built from the first four parts only; all later parts are
silently discarded, as on the blob `"a:b:c:d:e\tv:w:x:y:z"`. -/
theorem parse_audit_extra_parts_ignored :
    (∀ coeff : String, 4 < (pySplit coeff ':').length →
      parseCoeff coeff = Except.ok
        { namespaceFeature := (pySplit coeff ':').getD 0 ""
        , hashValue := (pySplit coeff ':').getD 1 ""
        , featureValue := (pySplit coeff ':').getD 2 ""
        , weightValue := (pySplit coeff ':').getD 3 "" }) ∧
    (parse_audit_command "a:b:c:d:e\tv:w:x:y:z" false).fst =
      Except.ok [{ namespaceFeature := "a", hashValue := "b",
                   featureValue := "c", weightValue := "d" },
                 { namespaceFeature := "v", hashValue := "w",
                   featureValue := "x", weightValue := "y" }] := by
  constructor
  · intro coeff h
    unfold parseCoeff
    rw [if_pos (by omega)]
  · decide

theorem parse_audit_extra_parts_ignored_witness :
    4 < (pySplit "a:b:c:d:e:f" ':').length ∧
    parseCoeff "a:b:c:d:e:f" = Except.ok
      { namespaceFeature := "a", hashValue := "b",
        featureValue := "c", weightValue := "d" } :=
  ⟨by decide, parse_audit_extra_parts_ignored.1 "a:b:c:d:e:f" (by decide)⟩

end VwAuditPp
